import Mathlib

/-!
Verification development for `src/trainNetwork.py` of smartDraft: a double-Q
training loop over draft experiences. The external collaborators (draft
states, the neural networks, the match-to-experience adapter) are opaque in
the source; they are modelled here by type parameters and oracle functions.
Python floats are modelled by exact rationals (`ℚ`).
-/

namespace SmartDraft

/-- Modelled from the spec: the draft-state classification codes
(`DraftState.DRAFT_COMPLETE`, `BAN_AND_SUBMISSION`, ..., from the module
`draftstate`, which is not under src/). Evaluating a draft state yields
terminal/complete, one of four invalid codes, or a valid in-progress code. -/
inductive StateCode where
  | DRAFT_COMPLETE
  | BAN_AND_SUBMISSION
  | DUPLICATE_SUBMISSION
  | DUPLICATE_ROLE
  | INVALID_SUBMISSION
  | IN_PROGRESS
deriving DecidableEq, Repr

/-- Modelled from the spec: `DraftState.invalid_states`, the set of invalid
classification codes (module `draftstate`, not under src/). -/
def invalid_states : List StateCode :=
  [.BAN_AND_SUBMISSION, .DUPLICATE_SUBMISSION, .DUPLICATE_ROLE, .INVALID_SUBMISSION]

/-- Modelled from the spec: the team-perspective codes
`DraftState.BLUE_TEAM` / `DraftState.RED_TEAM` (module `draftstate`, not
under src/). `trainNetwork.py` only compares them for equality. -/
inductive Team where
  | BLUE
  | RED
deriving DecidableEq, Repr

/-- An experience tuple `(state, (cid, pos), reward, next_state)` as produced
by `mp.processMatch` and consumed throughout `trainNetwork.py`. The draft
state type `S` is opaque; `cid` is the selection-id (`None` is the null
sentinel for ban-only steps), `pos` the role/position, `reward` a scalar. -/
structure Experience (S : Type) where
  start : S
  cid : Option ℤ
  pos : ℤ
  reward : ℚ
  finish : S
deriving DecidableEq, Repr

/-! ### Target-value computation (lines 147-166 and 277-291) -/

/-- The `np.max` of a Q-value row: errors (`none`) on an empty row,
otherwise the maximum entry. -/
def npMax (row : List ℚ) : Option ℚ :=
  match row with
  | [] => none
  | x :: xs => some (xs.foldl max x)

/-- Per-experience target Q-value (lines 153-163, duplicated at 282-291):
if the resulting state evaluates to `DRAFT_COMPLETE` the target is the raw
reward; otherwise it is `reward + discount_factor * max_a Q_target(s', a)`,
where the row of Q-estimates comes from the target network `targetOutQ`. -/
def targetValue {S : Type} (evalState : S → StateCode) (targetOutQ : S → List ℚ)
    (discount : ℚ) (rew : ℚ) (finish : S) : Option ℚ :=
  if evalState finish = StateCode.DRAFT_COMPLETE then some rew
  else (npMax (targetOutQ finish)).map (fun m => rew + discount * m)

/-- Target values for a sampled training batch (lines 152-164): the `updates`
list accumulated over the batch, one target per experience, in order. -/
def trainBatchTargets {S : Type} (evalState : S → StateCode) (targetOutQ : S → List ℚ)
    (discount : ℚ) : List (Experience S) → Option (List ℚ)
  | [] => some []
  | e :: rest =>
    match targetValue evalState targetOutQ discount e.reward e.finish,
          trainBatchTargets evalState targetOutQ discount rest with
    | some t, some ts => some (t :: ts)
    | _, _ => none

/-- Target values for the experiences accumulated by `validate_model`
(lines 277-291): `val_targets[n]` for each accumulated experience, in order. -/
def valTargets {S : Type} (evalState : S → StateCode) (targetOutQ : S → List ℚ)
    (discount : ℚ) : List (Experience S) → Option (List ℚ)
  | [] => some []
  | e :: rest =>
    match targetValue evalState targetOutQ discount e.reward e.finish,
          valTargets evalState targetOutQ discount rest with
    | some t, some ts => some (t :: ts)
    | _, _ => none

/-! ### Epsilon schedule (lines 57 and 138-140) -/

/-- The per-step epsilon decrement `1./(10*len(training_matches)*train_epochs)`
(line 140), for `M` training matches and `E` training epochs. -/
def epsDecrement (M E : ℕ) : ℚ := 1 / (10 * (M : ℚ) * (E : ℚ))

/-- One pass over lines 138-140: epsilon is decremented by `d` only when it is
strictly above `0.01`; otherwise it is left unchanged. -/
def epsStep (d eps : ℚ) : ℚ := if eps > 1 / 100 then eps - d else eps

/-- Epsilon after `n` decrement steps, starting from `1.` (line 57). -/
def epsAfter (d : ℚ) : ℕ → ℚ
  | 0 => 1
  | n + 1 => epsStep d (epsAfter d n)

/-! ### Learning-rate schedule (lines 51-52 and 77-79) -/

/-- The decay step run at the top of epoch `i` (lines 77-79): when `i > 0`,
`i` is a multiple of `lr_decay_freq`, and the current learning rate is at
least `min_learning_rate`, the learning rate is halved; otherwise kept. -/
def lrEpochStep (min_lr : ℚ) (freq : ℕ) (i : ℕ) (lr : ℚ) : ℚ :=
  if 0 < i ∧ i % freq = 0 ∧ min_lr ≤ lr then (1 / 2) * lr else lr

/-- The learning rate in effect during epoch `n` (after that epoch's decay
step), starting from initial rate `lr0` at epoch `0`. -/
def lrAt (min_lr : ℚ) (freq : ℕ) (lr0 : ℚ) : ℕ → ℚ
  | 0 => lrEpochStep min_lr freq 0 lr0
  | n + 1 => lrEpochStep min_lr freq (n + 1) (lrAt min_lr freq lr0 n)

/-! ### Checkpoint paths (lines 183-189) -/

/-- The checkpoint path written at the end of epoch `i` (line 189):
`"tmp/model_E{}.ckpt".format(train_epochs)`. The format argument is
`train_epochs`, so the path does not depend on `i`. -/
def epochCheckpointPath (i : ℕ) (train_epochs : ℕ) : String :=
  "tmp/model_E" ++ toString train_epochs ++ ".ckpt"

/-- The interim stash path (line 187), written every `model_stash_interval`
epochs when stashing is enabled: `"tmp/models/model_E{}.ckpt".format(i)`. -/
def stashCheckpointPath (i : ℕ) : String :=
  "tmp/models/model_E" ++ toString i ++ ".ckpt"

/-! ### Target synchronization (lines 205-244)

Following the spec's design note, the two networks' trainable variables are
modelled as two parameter lists aligned by position (the source aligns them by
collection order within each scope). -/

/-- The soft-update operation `create_target_update_ops` (lines 226-229): for each index `i` in
`range(len(target_params))` build the op
`target[i] := tau*online[i] + (1-tau)*target[i]`. Indexing `online_params[i]`
raises `IndexError` (`none` here) when the online list is exhausted first. -/
def create_target_update_ops (tau : ℚ) : List ℚ → List ℚ → Option (List ℚ)
  | [], _ => some []
  | _ :: _, [] => none
  | t :: ts, o :: os =>
    (create_target_update_ops tau ts os).map
      (fun rest => (tau * o + (1 - tau) * t) :: rest)

/-- The hard-copy operation `create_target_initialization_ops` (lines 231-244): the hard target copy,
implemented by calling `create_target_update_ops` with `tau=1.0`. -/
def create_target_initialization_ops (target_params online_params : List ℚ) :
    Option (List ℚ) :=
  create_target_update_ops 1 target_params online_params

/-! ### Winner bookkeeping in `validate_model` (lines 260 and 301-306) -/

/-- Line 260: the team perspective used to decompose a validation match:
`RED_TEAM if match["winner"]==1 else BLUE_TEAM`. The winner field is an
optional code (`none` is the unknown-winner sentinel; comparing it to `1`
is simply false, as in Python). -/
def valPerspective (winner : Option ℤ) : Team :=
  if winner = some 1 then Team.RED else Team.BLUE

/-- Line 303: `predicted_winner = BLUE_TEAM if blue_score >= red_score else
RED_TEAM`. -/
def predicted_winner (blue_score red_score : ℚ) : Team :=
  if red_score ≤ blue_score then Team.BLUE else Team.RED

/-- Line 304: the ground-truth winner recorded for the accuracy comparison:
`RED_TEAM if match["winner"]==1 else BLUE_TEAM`. -/
def match_winner (winner : Option ℤ) : Team :=
  if winner = some 1 then Team.RED else Team.BLUE

/-- Lines 305-306: a match counts as an accurate prediction exactly when the
predicted winner equals the recorded match winner. -/
def accuratePrediction (pw mw : Team) : Bool := pw == mw

/-! ### Replay-buffer storage discipline (lines 97-141, 258-269, 325-331) -/

/-- Modelled from the spec: the synthetic-experience injection policy of
lines 107-136, whose ingredients (`online_net.prediction`,
`state.formatAction`, `updateState`, `evaluateState`, `getReward`,
`random.random() < epsilon`) live in collaborators outside src/. Per the
spec's design note it is an explicit strategy: `predCid`/`predPos` decode the
network's predicted action (`state.formatAction(pred_act)`, line 118 — an
actual selection, so the selection-id is non-null; the null sentinel arises
only in match records for ban-only steps), `predState` is the simulated
resulting state (lines 120-121), `predCode` its evaluation (line 123),
`predReward` is `getReward(pred_state, blank_match)` (lines 127/134), and
`takeEpsBranch` decides the `state.getAction(*a)!=pred_act and
random.random() < epsilon` condition of line 130. -/
structure Predictor (S : Type) where
  predCid : S → ℤ
  predPos : S → ℤ
  predState : S → S
  predCode : S → StateCode
  predReward : S → ℚ
  takeEpsBranch : S → Bool

/-- The zero-or-one synthetic experiences stored for the current state when
the observation threshold has been passed (lines 107-136): an invalid
predicted state always yields a stored negative experience; otherwise one is
stored only when the prediction disagrees with the submitted action and the
epsilon draw succeeds. -/
def injectedExperiences {S : Type} (P : Predictor S) (observing : Bool) (st : S) :
    List (Experience S) :=
  if observing then
    if P.predCode st ∈ invalid_states then
      [⟨st, some (P.predCid st), P.predPos st, P.predReward st, P.predState st⟩]
    else if P.takeEpsBranch st then
      [⟨st, some (P.predCid st), P.predPos st, P.predReward st, P.predState st⟩]
    else []
  else []

/-- The sequence of experiences stored into the training replay buffer while
processing one match-team experience list (lines 97-141), carrying
`total_steps`: a null selection-id (`cid is None`, line 103) skips the
experience entirely — neither stored nor counted as a step; otherwise the
experience is stored (line 106), followed by any synthetic experience
(stored when `total_steps >= observations`, line 107), and the step counter
advances (line 141). -/
def trainStored {S : Type} (P : Predictor S) (observations : ℕ) :
    ℕ → List (Experience S) → List (Experience S)
  | _, [] => []
  | steps, e :: rest =>
    if e.cid = none then trainStored P observations steps rest
    else
      (e :: injectedExperiences P (decide (observations ≤ steps)) e.start)
        ++ trainStored P observations (steps + 1) rest

/-- The experiences accumulated into the fresh validation buffer from one
match's experience list (lines 263-269): null actions are skipped, all
others stored in order. -/
def valStored {S : Type} : List (Experience S) → List (Experience S)
  | [] => []
  | e :: rest =>
    if e.cid = none then valStored rest else e :: valStored rest

/-- The `(state, action-index)` examples `score_match` keeps from a match's
experience list (lines 325-331): null actions are ignored; each kept
experience contributes its state encoding and the index
`start.getAction(cid, pos)` of the actually-taken action. -/
def scoreExamples {S : Type} (getAction : S → ℤ → ℤ → ℕ) :
    List (Experience S) → List (S × ℕ)
  | [] => []
  | e :: rest =>
    match e.cid with
    | none => scoreExamples getAction rest
    | some c => (e.start, getAction e.start c e.pos) :: scoreExamples getAction rest

/-- The scoring function `score_match` (lines 310-338): batch the kept states through the
network's Q output (`outQ st a` is the Q-estimate for state `st` at action
index `a`) and accumulate `score += predicted_Q[i, actions[i]]` over the kept
examples, starting from `score = 0.`. -/
def score_match {S : Type} (outQ : S → ℕ → ℚ) (getAction : S → ℤ → ℤ → ℕ)
    (exps : List (Experience S)) : ℚ :=
  (scoreExamples getAction exps).foldl (fun s p => s + outQ p.1 p.2) 0

/-- The spec's description of `scoreMatch`, stated independently: the sum,
over the match's non-null-action experiences, of the network's Q-value at
each experience's actually-taken action index. -/
def scoreMatchSpec {S : Type} (outQ : S → ℕ → ℚ) (getAction : S → ℤ → ℤ → ℕ)
    (exps : List (Experience S)) : ℚ :=
  ((exps.filter (fun e => e.cid.isSome)).map
    (fun e => outQ e.start (getAction e.start (e.cid.getD 0) e.pos))).sum

/-! ### Concrete instances used to exercise the statements -/

/-- A stub network returning Q = 0 for every state and every action index. -/
def zeroQ : ℕ → ℕ → ℚ := fun _ _ => 0

/-- A concrete action-indexing function over the stub state type `ℕ`. -/
def natGetAction : ℕ → ℤ → ℤ → ℕ := fun s c p => s + c.natAbs + p.natAbs

/-- A concrete decomposition of a match into 10 pick/ban experiences for one
team, none with a null selection-id. -/
def tenPickMatch : List (Experience ℕ) :=
  (List.range 10).map (fun k => ⟨k, some (k : ℤ), (k : ℤ) % 5, 0, k + 1⟩)

/-- A concrete injection strategy over the stub state type `ℕ` that never
fires (valid predicted state, epsilon branch not taken). -/
def trivialPredictor : Predictor ℕ :=
  ⟨fun _ => 7, fun _ => 1, fun s => s + 1, fun _ => StateCode.IN_PROGRESS,
   fun _ => 0, fun _ => false⟩

/-- A concrete state evaluation over the stub state type `ℕ` under which
every state is terminal. -/
def constComplete : ℕ → StateCode := fun _ => StateCode.DRAFT_COMPLETE

/-- A concrete target-network Q-row over the stub state type `ℕ`. -/
def constRowQ : ℕ → List ℚ := fun _ => [2, 3]

/-- A concrete one-experience batch over the stub state type `ℕ`. -/
def oneExpBatch : List (Experience ℕ) := [⟨0, some 4, 2, 5, 1⟩]

/-! ## Theorems -/

/-- C4 counterexample: the end-of-epoch checkpoint path is
`tmp/model_E{train_epochs}.ckpt`, so with 5 training epochs, epochs 0 and 1
persist to the very same path — distinct epochs are not distinctly keyed —
and epoch 0's path does not contain its index `0` (the character `'0'`,
code 48) anywhere. -/
theorem epoch_checkpoint_not_keyed_by_epoch :
    epochCheckpointPath 0 5 = epochCheckpointPath 1 5 ∧
    (epochCheckpointPath 0 5).data.contains (Char.ofNat 48) = false := by
  constructor
  · rfl
  · decide

/-- C4 amended: at the end of every epoch `i`, the checkpoint is written to
the fixed path `tmp/model_E{train_epochs}.ckpt` containing the total epoch
count, the same path for every epoch (later epochs overwrite it); only the
optional interim stash path is keyed by the epoch index `i`. -/
theorem epoch_checkpoint_path_fixed (i j train_epochs : ℕ) :
    epochCheckpointPath i train_epochs =
      "tmp/model_E" ++ toString train_epochs ++ ".ckpt" ∧
    epochCheckpointPath i train_epochs = epochCheckpointPath j train_epochs ∧
    stashCheckpointPath i = "tmp/models/model_E" ++ toString i ++ ".ckpt" :=
  ⟨rfl, rfl, rfl⟩

/-- C7: on same-shaped parameter lists, the soft update with `tau = 1`
returns exactly the online parameters, the soft update with `tau = 0` returns
the target parameters unchanged, and the hard copy is literally the `tau = 1`
soft update. -/
theorem soft_update_tau_endpoints (t o : List ℚ) (h : t.length = o.length) :
    create_target_update_ops 1 t o = some o ∧
    create_target_update_ops 0 t o = some t ∧
    create_target_initialization_ops t o = create_target_update_ops 1 t o := by
  refine ⟨?_, ?_, rfl⟩
  · induction t generalizing o with
    | nil =>
      cases o with
      | nil => rfl
      | cons oh ot => simp at h
    | cons th tt ih =>
      cases o with
      | nil => simp at h
      | cons oh ot =>
        simp only [List.length_cons, Nat.add_right_cancel_iff] at h
        simp [create_target_update_ops, ih ot h]
  · induction t generalizing o with
    | nil =>
      cases o with
      | nil => rfl
      | cons oh ot => simp at h
    | cons th tt ih =>
      cases o with
      | nil => simp at h
      | cons oh ot =>
        simp only [List.length_cons, Nat.add_right_cancel_iff] at h
        simp [create_target_update_ops, ih ot h]

/-- C7 witness: the endpoint identities at concrete parameter lists
`target = [5, 7]`, `online = [3, 4]`. -/
theorem soft_update_tau_endpoints_witness :
    create_target_update_ops 1 [5, 7] [3, 4] = some [3, 4] ∧
    create_target_update_ops 0 [5, 7] [3, 4] = some [5, 7] ∧
    create_target_initialization_ops [5, 7] [3, 4] =
      create_target_update_ops 1 [5, 7] [3, 4] :=
  soft_update_tau_endpoints [5, 7] [3, 4] (by decide)

/-- C8 counterexample: a mismatched pair (1 target parameter, 2 online
parameters) on which the hard target copy does not fail — it silently
succeeds, copying the first online parameter. -/
theorem hard_copy_mismatch_no_failure :
    ([(0 : ℚ)] : List ℚ).length ≠ ([(0 : ℚ), 1] : List ℚ).length ∧
    create_target_initialization_ops [0] [0, 1] = some [0] := by
  constructor
  · decide
  · norm_num [create_target_initialization_ops, create_target_update_ops]

/-- C8 amended: the target update (and hence the hard copy, its `tau = 1`
instance) fails exactly when the target parameter list is longer than the
online parameter list; when the online list is at least as long — including
every mismatch where it is strictly longer — the operation succeeds, silently
ignoring the surplus online parameters. -/
theorem target_update_failure_iff (tau : ℚ) (t o : List ℚ) :
    (create_target_update_ops tau t o = none ↔ o.length < t.length) ∧
    (create_target_initialization_ops t o = none ↔ o.length < t.length) := by
  have key : ∀ (tau : ℚ) (t o : List ℚ),
      create_target_update_ops tau t o = none ↔ o.length < t.length := by
    intro tau t
    induction t with
    | nil =>
      intro o
      simp [create_target_update_ops]
    | cons th tt ih =>
      intro o
      cases o with
      | nil => simp [create_target_update_ops]
      | cons oh ot =>
        simp only [create_target_update_ops, List.length_cons]
        rw [Option.map_eq_none']
        rw [ih ot]
        omega
  exact ⟨key tau t o, key 1 t o⟩

/-- C9: when a validation match's blue score equals its red score, the
predicted winner is the blue team (the `>=` comparison breaks the tie toward
blue), so the tie counts as an accurate prediction exactly when the recorded
ground-truth winner is blue. -/
theorem tie_predicts_blue (b r : ℚ) (w : Option ℤ) (h : b = r) :
    predicted_winner b r = Team.BLUE ∧
    (accuratePrediction (predicted_winner b r) (match_winner w) = true ↔
      match_winner w = Team.BLUE) := by
  subst h
  constructor
  · simp [predicted_winner]
  · cases hw : match_winner w <;>
      simp [predicted_winner, accuratePrediction, hw]

/-- C9 witness: an exact tie at scores 2 vs 2, against a red ground truth. -/
theorem tie_predicts_blue_witness :
    predicted_winner 2 2 = Team.BLUE ∧
    (accuratePrediction (predicted_winner 2 2) (match_winner (some 1)) = true ↔
      match_winner (some 1) = Team.BLUE) :=
  tie_predicts_blue 2 2 (some 1) rfl

/-- C10: for every winner field other than the red-team code `1` — the
unknown-winner sentinel `none` included — `validate_model` decomposes the
match from the blue perspective and records blue as the ground-truth winner,
so such a match counts as an accurate prediction exactly when blue is the
predicted winner. -/
theorem unknown_winner_defaults_blue (w : Option ℤ) (hw : w ≠ some 1) :
    valPerspective w = Team.BLUE ∧
    match_winner w = Team.BLUE ∧
    ∀ b r : ℚ,
      (accuratePrediction (predicted_winner b r) (match_winner w) = true ↔
        predicted_winner b r = Team.BLUE) := by
  refine ⟨?_, ?_, ?_⟩
  · simp [valPerspective, hw]
  · simp [match_winner, hw]
  · intro b r
    simp [match_winner, hw, accuratePrediction]

/-! Shared facts about the epsilon recurrence. -/

theorem epsAfter_succ (d : ℚ) (n : ℕ) :
    epsAfter d (n + 1) = epsStep d (epsAfter d n) := rfl

theorem epsAfter_formula (d : ℚ) :
    ∀ N : ℕ, (∀ k : ℕ, k < N → (1 : ℚ) / 100 < 1 - k * d) →
      epsAfter d N = 1 - N * d := by
  intro N
  induction N with
  | zero => intro _; simp [epsAfter]
  | succ n ih =>
    intro h
    have hn : epsAfter d n = 1 - n * d :=
      ih (fun k hk => h k (Nat.lt_succ_of_lt hk))
    have hgt : (1 : ℚ) / 100 < 1 - n * d := h n (Nat.lt_succ_self n)
    rw [epsAfter_succ, hn, epsStep, if_pos hgt]
    push_cast
    ring

/-- C2 counterexample: with 1 training match and 1 epoch the decrement is
`d = 1/10`; after 10 decrement steps epsilon is exactly `0`, not
`max(0.01, 1 - 10*d) = 0.01` — the guard `epsilon > 0.01` lets the final
step overshoot the floor, so epsilon also leaves `[0.01, 1.0]`. -/
theorem epsilon_overshoots_floor :
    epsAfter (epsDecrement 1 1) 10 ≠
      max (1 / 100) (1 - 10 * epsDecrement 1 1) ∧
    epsAfter (epsDecrement 1 1) 10 < 1 / 100 := by
  norm_num [epsDecrement, epsAfter, epsStep]

/-- C2 amended: starting from `1.0` with per-step decrement
`d = 1/(10*M*E)`, epsilon is monotonically non-increasing, stays in the
interval `(0.01 - d, 1.0]` (one decrement may carry it below the `0.01`
floor, after which it never moves again), and equals `1 - N*d` exactly as
long as every earlier value was still above the floor. -/
theorem epsilon_schedule (M E : ℕ) (hM : 1 ≤ M) (hE : 1 ≤ E) :
    (∀ N : ℕ, epsAfter (epsDecrement M E) (N + 1) ≤ epsAfter (epsDecrement M E) N) ∧
    (∀ N : ℕ, 1 / 100 - epsDecrement M E < epsAfter (epsDecrement M E) N ∧
      epsAfter (epsDecrement M E) N ≤ 1) ∧
    (∀ N : ℕ, (∀ k : ℕ, k < N → (1 : ℚ) / 100 < 1 - k * epsDecrement M E) →
      epsAfter (epsDecrement M E) N = 1 - N * epsDecrement M E) := by
  have hMq : (0 : ℚ) < (M : ℚ) := by exact_mod_cast hM
  have hEq : (0 : ℚ) < (E : ℚ) := by exact_mod_cast hE
  have hd : 0 < epsDecrement M E := by
    rw [epsDecrement]
    positivity
  refine ⟨?_, ?_, fun N h => epsAfter_formula (epsDecrement M E) N h⟩
  · intro N
    rw [epsAfter_succ, epsStep]
    split
    · linarith
    · exact le_refl _
  · intro N
    induction N with
    | zero =>
      constructor
      · show 1 / 100 - epsDecrement M E < 1
        linarith
      · exact le_refl 1
    | succ n ih =>
      rw [epsAfter_succ, epsStep]
      split
      · rename_i hcond
        constructor
        · linarith
        · linarith [ih.2]
      · exact ih

/-- C2 witness: with 2 matches and 3 epochs, one decrement step does not
increase epsilon, and with no decrement steps applied the closed-form value
`1 - 0*d = 1` holds. -/
theorem epsilon_schedule_witness :
    epsAfter (epsDecrement 2 3) 1 ≤ epsAfter (epsDecrement 2 3) 0 ∧
    epsAfter (epsDecrement 2 3) 0 = 1 - (0 : ℕ) * epsDecrement 2 3 := by
  have h := epsilon_schedule 2 3 (by decide) (by decide)
  exact ⟨h.1 0, h.2.2 0 (fun k hk => absurd hk (Nat.not_lt_zero k))⟩

/-! Shared facts about the learning-rate recurrence. -/

theorem lrAt_succ (min_lr : ℚ) (freq : ℕ) (lr0 : ℚ) (n : ℕ) :
    lrAt min_lr freq lr0 (n + 1) =
      lrEpochStep min_lr freq (n + 1) (lrAt min_lr freq lr0 n) := rfl

theorem lrEpochStep_le (min_lr : ℚ) (freq i : ℕ) (lr : ℚ) (h : 0 ≤ lr) :
    lrEpochStep min_lr freq i lr ≤ lr := by
  rw [lrEpochStep]
  split
  · linarith
  · exact le_refl lr

theorem lrAt_nonneg (min_lr : ℚ) (freq : ℕ) (lr0 : ℚ) (h0 : 0 ≤ lr0) :
    ∀ n : ℕ, 0 ≤ lrAt min_lr freq lr0 n := by
  have step : ∀ (i : ℕ) (lr : ℚ), 0 ≤ lr → 0 ≤ lrEpochStep min_lr freq i lr := by
    intro i lr h
    rw [lrEpochStep]
    split
    · linarith
    · exact h
  intro n
  induction n with
  | zero => exact step 0 lr0 h0
  | succ m ih => exact step (m + 1) _ ih

/-- C3 counterexample: with learning rate exactly at the floor `1e-6` and
`lr_decay_freq = 10`, epoch 10's decay step still fires (the guard is
`learning_rate >= min_learning_rate`), halving the rate to `5e-7` — strictly
below the floor the claim says is never crossed. -/
theorem learning_rate_below_floor :
    lrAt (1 / 1000000) 10 (1 / 1000000) 10 < 1 / 1000000 := by
  norm_num [lrAt, lrEpochStep]

/-- C3 amended: the learning rate is monotonically non-increasing across
epochs; on every `lr_decay_freq`-th epoch after the first it is halved
exactly when it is still at least the floor `min_learning_rate` and left
unchanged when it is already below the floor; consequently it can end up
below the floor, but (when it starts at least at half the floor) never below
half of it. -/
theorem learning_rate_schedule (min_lr lr0 : ℚ) (freq : ℕ) (h0 : 0 ≤ lr0) :
    (∀ n : ℕ, lrAt min_lr freq lr0 (n + 1) ≤ lrAt min_lr freq lr0 n) ∧
    (∀ n : ℕ, (n + 1) % freq = 0 →
      (min_lr ≤ lrAt min_lr freq lr0 n →
        lrAt min_lr freq lr0 (n + 1) = (1 / 2) * lrAt min_lr freq lr0 n) ∧
      (lrAt min_lr freq lr0 n < min_lr →
        lrAt min_lr freq lr0 (n + 1) = lrAt min_lr freq lr0 n)) ∧
    (min_lr / 2 ≤ lr0 → ∀ n : ℕ, min_lr / 2 ≤ lrAt min_lr freq lr0 n) := by
  refine ⟨?_, ?_, ?_⟩
  · intro n
    rw [lrAt_succ]
    exact lrEpochStep_le min_lr freq (n + 1) _ (lrAt_nonneg min_lr freq lr0 h0 n)
  · intro n hfreq
    constructor
    · intro hge
      rw [lrAt_succ, lrEpochStep, if_pos ⟨Nat.succ_pos n, hfreq, hge⟩]
    · intro hlt
      rw [lrAt_succ, lrEpochStep, if_neg]
      intro hcond
      exact absurd hcond.2.2 (not_le.mpr hlt)
  · intro hhalf n
    induction n with
    | zero =>
      show min_lr / 2 ≤ lrEpochStep min_lr freq 0 lr0
      rw [lrEpochStep, if_neg]
      · exact hhalf
      · intro hcond
        exact absurd hcond.1 (lt_irrefl 0)
    | succ m ih =>
      rw [lrAt_succ, lrEpochStep]
      split
      · rename_i hcond
        linarith [hcond.2.2]
      · exact ih

/-- C3 witness: with floor `1e-6`, decay frequency 10 and initial rate
`1e-3`, the rate during epoch 1 is no larger than during epoch 0, epoch 10
(a decay epoch with the rate above the floor) exactly halves it, and the
rate never drops below half the floor. -/
theorem learning_rate_schedule_witness :
    lrAt (1 / 1000000) 10 (1 / 1000) 1 ≤ lrAt (1 / 1000000) 10 (1 / 1000) 0 ∧
    (1 / 1000000 ≤ lrAt (1 / 1000000) 10 (1 / 1000) 9 →
      lrAt (1 / 1000000) 10 (1 / 1000) 10 =
        (1 / 2) * lrAt (1 / 1000000) 10 (1 / 1000) 9) ∧
    1 / 1000000 / 2 ≤ lrAt (1 / 1000000) 10 (1 / 1000) 0 := by
  have h := learning_rate_schedule (1 / 1000000) (1 / 1000) 10 (by norm_num)
  exact ⟨h.1 0, (h.2.1 9 (by decide)).1, h.2.2 (by norm_num) 0⟩

/-! Shared facts about the target-value computation. -/

theorem targetValue_terminal {S : Type} (ev : S → StateCode) (tq : S → List ℚ)
    (γ r : ℚ) (fin : S) (h : ev fin = StateCode.DRAFT_COMPLETE) :
    targetValue ev tq γ r fin = some r := by
  rw [targetValue, if_pos h]

theorem targetValue_bootstrap {S : Type} (ev : S → StateCode) (tq : S → List ℚ)
    (γ r : ℚ) (fin : S) (m : ℚ) (h : ev fin ≠ StateCode.DRAFT_COMPLETE)
    (hm : npMax (tq fin) = some m) :
    targetValue ev tq γ r fin = some (r + γ * m) := by
  rw [targetValue, if_neg h, hm, Option.map_some']

theorem trainBatchTargets_getElem {S : Type} (ev : S → StateCode)
    (tq : S → List ℚ) (γ : ℚ) :
    ∀ (l : List (Experience S)) (ts : List ℚ),
      trainBatchTargets ev tq γ l = some ts →
      ∀ (i : ℕ) (e : Experience S) (t : ℚ), l[i]? = some e → ts[i]? = some t →
        targetValue ev tq γ e.reward e.finish = some t := by
  intro l
  induction l with
  | nil =>
    intro ts _ i e t he _
    simp at he
  | cons x xs ih =>
    intro ts h i e t he ht
    rw [trainBatchTargets] at h
    cases hx : targetValue ev tq γ x.reward x.finish with
    | none => rw [hx] at h; exact absurd h (by simp)
    | some t0 =>
      cases hrest : trainBatchTargets ev tq γ xs with
      | none => rw [hx, hrest] at h; exact absurd h (by simp)
      | some ts0 =>
        rw [hx, hrest] at h
        have hts : ts = t0 :: ts0 := (Option.some.inj h).symm
        subst hts
        cases i with
        | zero =>
          simp only [List.getElem?_cons_zero, Option.some.injEq] at he ht
          rw [← he, ← ht]
          exact hx
        | succ j =>
          simp only [List.getElem?_cons_succ] at he ht
          exact ih ts0 hrest j e t he ht

theorem valTargets_eq_trainBatchTargets {S : Type} (ev : S → StateCode)
    (tq : S → List ℚ) (γ : ℚ) :
    ∀ l : List (Experience S), valTargets ev tq γ l = trainBatchTargets ev tq γ l := by
  intro l
  induction l with
  | nil => rfl
  | cons x xs ih => rw [valTargets, trainBatchTargets, ih]

/-- C1: for every experience of a sampled training batch and every
experience accumulated by `validate_model`, the computed target Q-value is
exactly the experience's reward when the resulting state evaluates as
terminal (`DRAFT_COMPLETE`), and otherwise is
`reward + discount_factor * max_a Q_target(s', a)` over the target network's
Q-estimates for the resulting state. -/
theorem target_q_values {S : Type} (evalState : S → StateCode)
    (targetOutQ : S → List ℚ) (discount : ℚ)
    (batch vexps : List (Experience S)) (ts vs : List ℚ)
    (hb : trainBatchTargets evalState targetOutQ discount batch = some ts)
    (hv : valTargets evalState targetOutQ discount vexps = some vs) :
    (∀ (i : ℕ) (e : Experience S) (t : ℚ), batch[i]? = some e → ts[i]? = some t →
      (evalState e.finish = StateCode.DRAFT_COMPLETE → t = e.reward) ∧
      ∀ m : ℚ, evalState e.finish ≠ StateCode.DRAFT_COMPLETE →
        npMax (targetOutQ e.finish) = some m → t = e.reward + discount * m) ∧
    (∀ (i : ℕ) (e : Experience S) (t : ℚ), vexps[i]? = some e → vs[i]? = some t →
      (evalState e.finish = StateCode.DRAFT_COMPLETE → t = e.reward) ∧
      ∀ m : ℚ, evalState e.finish ≠ StateCode.DRAFT_COMPLETE →
        npMax (targetOutQ e.finish) = some m → t = e.reward + discount * m) := by
  have main : ∀ (l : List (Experience S)) (out : List ℚ),
      trainBatchTargets evalState targetOutQ discount l = some out →
      ∀ (i : ℕ) (e : Experience S) (t : ℚ), l[i]? = some e → out[i]? = some t →
        (evalState e.finish = StateCode.DRAFT_COMPLETE → t = e.reward) ∧
        ∀ m : ℚ, evalState e.finish ≠ StateCode.DRAFT_COMPLETE →
          npMax (targetOutQ e.finish) = some m → t = e.reward + discount * m := by
    intro l out hout i e t he ht
    have hval := trainBatchTargets_getElem evalState targetOutQ discount l out hout i e t he ht
    constructor
    · intro hterm
      have := targetValue_terminal evalState targetOutQ discount e.reward e.finish hterm
      rw [this] at hval
      exact (Option.some.inj hval).symm
    · intro m hnterm hm
      have := targetValue_bootstrap evalState targetOutQ discount e.reward e.finish m hnterm hm
      rw [this] at hval
      exact (Option.some.inj hval).symm
  refine ⟨main batch ts hb, main vexps vs ?_⟩
  rw [← valTargets_eq_trainBatchTargets]
  exact hv

/-- C1 witness: a one-experience batch whose resulting state is terminal
(and an empty validation set); the computed target equals the reward `5`. -/
theorem target_q_values_witness :
    trainBatchTargets constComplete constRowQ (1 / 2) oneExpBatch = some [5] ∧
    (5 : ℚ) = 5 := by
  refine ⟨rfl, ?_⟩
  exact ((target_q_values constComplete constRowQ (1 / 2) oneExpBatch [] [5] []
    rfl rfl).1 0 ⟨0, some 4, 2, 5, 1⟩ 5 rfl rfl).1 rfl

/-! Shared facts about the storage and scoring filters. -/

theorem injected_cid_some {S : Type} (P : Predictor S) (b : Bool) (st : S) :
    ∀ x ∈ injectedExperiences P b st, x.cid ≠ none := by
  intro x hx
  cases b with
  | false => simp [injectedExperiences] at hx
  | true =>
    by_cases h1 : P.predCode st ∈ invalid_states
    · simp only [injectedExperiences, if_pos h1, if_true, List.mem_singleton] at hx
      rw [hx]
      simp
    · by_cases h2 : P.takeEpsBranch st
      · simp only [injectedExperiences, if_neg h1, if_pos h2, if_true,
          List.mem_singleton] at hx
        rw [hx]
        simp
      · simp [injectedExperiences, h1, h2] at hx

theorem trainStored_cid_some {S : Type} (P : Predictor S) (obs : ℕ) :
    ∀ (exps : List (Experience S)) (steps : ℕ) (e : Experience S),
      e ∈ trainStored P obs steps exps → e.cid ≠ none := by
  intro exps
  induction exps with
  | nil =>
    intro steps e he
    simp [trainStored] at he
  | cons x xs ih =>
    intro steps e he
    rw [trainStored] at he
    by_cases hx : x.cid = none
    · rw [if_pos hx] at he
      exact ih steps e he
    · rw [if_neg hx] at he
      simp only [List.cons_append, List.mem_cons, List.mem_append] at he
      rcases he with rfl | he | he
      · exact hx
      · exact injected_cid_some P _ x.start e he
      · exact ih (steps + 1) e he

theorem valStored_cid_some {S : Type} :
    ∀ (exps : List (Experience S)) (e : Experience S),
      e ∈ valStored exps → e.cid ≠ none := by
  intro exps
  induction exps with
  | nil =>
    intro e he
    simp [valStored] at he
  | cons x xs ih =>
    intro e he
    rw [valStored] at he
    by_cases hx : x.cid = none
    · rw [if_pos hx] at he
      exact ih e he
    · rw [if_neg hx] at he
      rcases List.mem_cons.mp he with rfl | he
      · exact hx
      · exact ih e he

theorem scoreExamples_cons {S : Type} (ga : S → ℤ → ℤ → ℕ) (x : Experience S)
    (xs : List (Experience S)) :
    scoreExamples ga (x :: xs) =
      match x.cid with
      | none => scoreExamples ga xs
      | some c => (x.start, ga x.start c x.pos) :: scoreExamples ga xs := rfl

theorem scoreExamples_filter {S : Type} (ga : S → ℤ → ℤ → ℕ) :
    ∀ exps : List (Experience S),
      scoreExamples ga exps =
        scoreExamples ga (exps.filter (fun e => e.cid.isSome)) := by
  intro exps
  induction exps with
  | nil => rfl
  | cons x xs ih =>
    cases hx : x.cid with
    | none =>
      rw [scoreExamples_cons]
      simp only [hx, List.filter_cons, Option.isSome_none, Bool.false_eq_true,
        if_false]
      exact ih
    | some c =>
      rw [scoreExamples_cons]
      simp only [hx, List.filter_cons, Option.isSome_some, if_true]
      rw [scoreExamples_cons, hx, ih]

/-- C5: every experience stored into the training replay buffer while
processing a match (match-derived or synthetically injected), and every
experience accumulated into the validation buffer, has a non-null
selection-id; and `score_match`'s kept examples are unchanged by first
discarding the null-action experiences — null actions are skipped, never
stored or scored. -/
theorem no_null_actions_stored {S : Type} (P : Predictor S)
    (observations steps : ℕ) (getAction : S → ℤ → ℤ → ℕ)
    (exps : List (Experience S)) :
    (∀ e ∈ trainStored P observations steps exps, e.cid ≠ none) ∧
    (∀ e ∈ valStored exps, e.cid ≠ none) ∧
    scoreExamples getAction exps =
      scoreExamples getAction (exps.filter (fun e => e.cid.isSome)) :=
  ⟨fun e he => trainStored_cid_some P observations exps steps e he,
   fun e he => valStored_cid_some exps e he,
   scoreExamples_filter getAction exps⟩

/-- C5 witness: the single stored experience of a concrete one-experience
match has a non-null selection-id. -/
theorem no_null_actions_stored_witness :
    (⟨0, some 4, 2, 5, 1⟩ : Experience ℕ).cid ≠ none :=
  (no_null_actions_stored trivialPredictor 0 0 natGetAction oneExpBatch).1
    ⟨0, some 4, 2, 5, 1⟩ (by decide)

/-! Shared facts about the score accumulation. -/

theorem foldl_add_map {α : Type} (f : α → ℚ) :
    ∀ (l : List α) (c : ℚ), l.foldl (fun s p => s + f p) c = c + (l.map f).sum := by
  intro l
  induction l with
  | nil => intro c; simp
  | cons x xs ih =>
    intro c
    rw [List.foldl_cons, ih, List.map_cons, List.sum_cons]
    ring

theorem scoreExamples_eq_map {S : Type} (ga : S → ℤ → ℤ → ℕ) :
    ∀ exps : List (Experience S),
      scoreExamples ga exps =
        (exps.filter (fun e => e.cid.isSome)).map
          (fun e => (e.start, ga e.start (e.cid.getD 0) e.pos)) := by
  intro exps
  induction exps with
  | nil => rfl
  | cons x xs ih =>
    cases hx : x.cid with
    | none =>
      rw [scoreExamples_cons]
      simp only [hx, List.filter_cons, Option.isSome_none, Bool.false_eq_true,
        if_false]
      exact ih
    | some c =>
      rw [scoreExamples_cons]
      simp only [hx, List.filter_cons, Option.isSome_some, if_true, List.map_cons]
      rw [ih]
      simp [hx]

/-- C6: `score_match` returns the sum, over the match's non-null-action
experiences for the scored team, of the network's Q-value at each
experience's actually-taken action index; in particular, on a concrete match
with 10 non-null picks/bans and the stub network returning Q = 0 for every
state and action, the score is `0`. -/
theorem score_match_is_sum :
    (∀ (S : Type) (outQ : S → ℕ → ℚ) (getAction : S → ℤ → ℤ → ℕ)
        (exps : List (Experience S)),
      score_match outQ getAction exps = scoreMatchSpec outQ getAction exps) ∧
    tenPickMatch.length = 10 ∧
    tenPickMatch.all (fun e => e.cid.isSome) = true ∧
    score_match zeroQ natGetAction tenPickMatch = 0 := by
  have hgen : ∀ (S : Type) (outQ : S → ℕ → ℚ) (getAction : S → ℤ → ℤ → ℕ)
      (exps : List (Experience S)),
      score_match outQ getAction exps = scoreMatchSpec outQ getAction exps := by
    intro S outQ ga exps
    rw [score_match, foldl_add_map (fun p : S × ℕ => outQ p.1 p.2), scoreExamples_eq_map,
      List.map_map, scoreMatchSpec, zero_add]
    rfl
  refine ⟨hgen, by decide, by decide, ?_⟩
  rw [hgen]
  simp [scoreMatchSpec, zeroQ]

/-- C10 witness: the unknown-winner sentinel with scores 3 vs 7. -/
theorem unknown_winner_defaults_blue_witness :
    valPerspective none = Team.BLUE ∧
    match_winner none = Team.BLUE ∧
    (accuratePrediction (predicted_winner 3 7) (match_winner none) = true ↔
      predicted_winner 3 7 = Team.BLUE) := by
  have h := unknown_winner_defaults_blue none (by decide)
  exact ⟨h.1, h.2.1, h.2.2 3 7⟩

end SmartDraft
